import Mathlib

/-!
Verification of the routing/dispatch core of the Simple-Web-App-Framework
repository (files web_server.py, web_util.py, endpoints.py).

Python dictionaries are embedded as association lists with unique-key
update semantics (`dictSet` replaces the first binding in place, otherwise
appends, matching insertion-ordered `dict` mutation); byte strings are
`List Nat`; text strings are Lean `String`.
-/

/-- First-match lookup in an association list (Python `d[k]` / `k in d`). -/
def dictGet? {α : Type} : List (String × α) → String → Option α
  | [], _ => none
  | (k', v) :: t, k => if k' = k then some v else dictGet? t k

/-- Python `k in d`. -/
def dictContains {α : Type} (l : List (String × α)) (k : String) : Bool :=
  (dictGet? l k).isSome

/-- Python `d[k] = v`: replace the first binding of `k` in place, else append. -/
def dictSet {α : Type} : List (String × α) → String → α → List (String × α)
  | [], k, v => [(k, v)]
  | (k', v') :: t, k, v => if k' = k then (k, v) :: t else (k', v') :: dictSet t k v

abbrev Headers := List (String × String)

/-- A registered `WebPathHandler` subclass: its identity plus the class-level
flags consulted by the dispatcher (web_util.py lines 202-206). -/
structure HandlerClass where
  hid : Nat
  DISABLE_HEAD_REQUESTS : Bool
  DISABLE_OPTIONS_REQUESTS : Bool
deriving DecidableEq, Repr

/-- One per-method exact-path table: path string to handler class, where
`none` is the "no handler" sentinel (web_util.py lines 137-154). -/
abbrev PathTable := List (String × Option HandlerClass)

/-- web_util.ResponseContainer: status code, headers, body bytes. -/
structure ResponseContainer where
  status_code : Nat
  headers : Headers
  body : List Nat
deriving DecidableEq, Repr

/-- web_util.RESP_OK(); `defs` stands for the process-wide `Default.headers()`
snapshot that `dataclasses.field(default_factory=Default.headers)` copies in. -/
def RESP_OK (defs : Headers) : ResponseContainer := ⟨200, defs, []⟩

/-- web_util.RESP_NO_CONTENT(). -/
def RESP_NO_CONTENT (defs : Headers) : ResponseContainer := ⟨204, defs, []⟩

/-- web_util.RESP_NOT_FOUND(). -/
def RESP_NOT_FOUND (defs : Headers) : ResponseContainer := ⟨404, defs, []⟩

/-- web_util.RESP_BAD_METHOD(). -/
def RESP_BAD_METHOD (defs : Headers) : ResponseContainer := ⟨405, defs, []⟩

/-- Outcome of `_build_and_send_response` up to the point where
`self.pending_resp` is fixed: either a framework-synthesized response, the
invocation of a matched handler class (`path_handler(self, RESP_OK()).handle()`,
web_server.py line 149), or the uncaught `AttributeError` raised when line 134
reads a `DISABLE_*` attribute off the `None` sentinel. -/
inductive DispatchResult where
  | resp (r : ResponseContainer)
  | invoked (h : HandlerClass)
  | attrError
deriving DecidableEq, Repr

/-- web_server.py line 134, with Python's left-to-right short-circuit
evaluation: `(command == 'HEAD' and ph.DISABLE_HEAD_REQUESTS) or
(command == 'OPTIONS' and ph.DISABLE_OPTIONS_REQUESTS)`.  Reading the
attribute off the sentinel `None` raises `AttributeError` (`.error ()`). -/
def disableCheck (command : String) (ph : Option HandlerClass) : Except Unit Bool :=
  if command = "HEAD" then
    match ph with
    | none => .error ()
    | some h => .ok h.DISABLE_HEAD_REQUESTS
  else if command = "OPTIONS" then
    match ph with
    | none => .error ()
    | some h => .ok h.DISABLE_OPTIONS_REQUESTS
  else .ok false

/-- web_server.py lines 139-143: build the `Allow` header value by appending
`method + ", "` for every method table containing the path, then dropping the
trailing two characters.  The successive in-place assignments to
`headers['Allow']` collapse to the single final value. -/
def buildAllow (allPaths : List (String × PathTable)) (p : String) : String :=
  (allPaths.foldl (fun acc e => if dictContains e.2 p then acc ++ e.1 ++ ", " else acc) "").dropRight 2

/-- web_server.py lines 137-143: the synthesized 204 response for OPTIONS. -/
def optionsResp (defs : Headers) (allPaths : List (String × PathTable)) (p : String) :
    ResponseContainer :=
  let r := RESP_NO_CONTENT defs
  { r with headers := dictSet r.headers "Allow" (buildAllow allPaths p) }

/-- The `for m in self.__class__.PATHS` loop of `_build_and_send_response`
(web_server.py lines 131-157).  `pending` is `self.pending_resp` (initially
`None`).  The Python guard `(m == command or command in (HEAD, OPTIONS)) and
path in PATHS[m]` / `elif path in PATHS[m]` is decomposed into a lookup of the
path followed by the method condition; the two forms agree. -/
def dispatchGo (defs : Headers) (allPaths : List (String × PathTable)) (command p : String)
    (pending : Option ResponseContainer) : List (String × PathTable) → DispatchResult
  | [] =>
    -- lines 156-157: fall back to 404 when nothing set pending_resp
    match pending with
    | some r => .resp r
    | none => .resp (RESP_NOT_FOUND defs)
  | (m, tbl) :: rest =>
    if m = command ∨ command = "HEAD" ∨ command = "OPTIONS" then
      match dictGet? tbl p with
      | some ph =>
        match disableCheck command ph with
        | .error _ => .attrError                       -- AttributeError escapes
        | .ok true => .resp (RESP_BAD_METHOD defs)     -- lines 134-136
        | .ok false =>
          if command = "OPTIONS" then .resp (optionsResp defs allPaths p)  -- lines 137-144
          else
            match ph with
            | none => .resp (RESP_OK defs)             -- lines 145-147 (sentinel)
            | some h => .invoked h                     -- lines 149-151
      | none => dispatchGo defs allPaths command p pending rest
    else
      match dictGet? tbl p with
      | some _ => dispatchGo defs allPaths command p (some (RESP_BAD_METHOD defs)) rest
        -- lines 153-154: path exists under another method; no break
      | none => dispatchGo defs allPaths command p pending rest

/-- `_build_and_send_response` routing (pending_resp starts as None). -/
def dispatch (defs : Headers) (allPaths : List (String × PathTable)) (command p : String) :
    DispatchResult :=
  dispatchGo defs allPaths command p none allPaths

/-- web_util.WebPathMap.PATHS: the insertion-ordered dictionary of the six
per-method tables (web_util.py lines 155-162). -/
def mkPATHS (c d g pa po pu : PathTable) : List (String × PathTable) :=
  [("CONNECT", c), ("DELETE", d), ("GET", g), ("PATCH", pa), ("POST", po), ("PUT", pu)]

/-- The table shipped in web_util.WebPathMap: every method maps "/" to the
no-handler sentinel (web_util.py lines 136-162). -/
def defaultPATHS : List (String × PathTable) :=
  mkPATHS [("/", none)] [("/", none)] [("/", none)] [("/", none)] [("/", none)] [("/", none)]

/-- The process-wide default headers configured in endpoints.py lines 21-24
(as stored by `Default.set_headers`). -/
def exampleDefaultHeaders : Headers :=
  [("X-Example-Default-Header", "SeanP"), ("Connection", "close")]

/-- Python `str.lower()` restricted to its ASCII action (header names and
method tokens in this program are ASCII). -/
def strLower (s : String) : String := String.mk (s.data.map Char.toLower)

/-- Python `c in s` for a single character. -/
def strContainsChar (s : String) (c : Char) : Bool := s.data.any (fun x => x == c)

/-- Python `s.replace(a, b)` for one-character pattern and replacement. -/
def replaceChar (s : String) (a b : Char) : String :=
  String.mk (s.data.map (fun x => if x == a then b else x))

/-- WebAppHttpHandler.get_url_query_param (web_server.py lines 201-209).
`query` is the `parse_qs` result: each key maps to the list of its values.
Every return path yields a Python list of strings.  In the case-insensitive
branch, the first key whose lowercasing matches is looked up (`self.query[k]`
with `k` drawn from `self.query.keys()`). -/
def get_url_query_param (query : List (String × List String)) (key default_val : String)
    (case_sensitive : Bool) : List String :=
  if case_sensitive && dictContains query key then (dictGet? query key).getD []
  else if !case_sensitive then
    match query.find? (fun kv => strLower kv.1 == strLower key) with
    | some kv => kv.2
    | none => [default_val]
  else [default_val]

/-- The invalid-character list for header keys (web_util.py line 47). -/
def bad_chars : List Char := [' ', ':', '\r', '\n', '\t', '\x08', '\x00']

/-- The per-entry work of `Default.set_headers` (web_util.py lines 45-52): an
assertion failure (`none`) if the key holds a bad character, otherwise the
value with LF and CR replaced by spaces. -/
def sanitizeEntry (kv : String × String) : Option (String × String) :=
  if bad_chars.any (fun c => strContainsChar kv.1 c) then none
  else some (kv.1, replaceChar (replaceChar kv.2 '\n' ' ') '\r' ' ')

/-- web_util.Default.set_headers (lines 41-55): validate every key, normalize
every value; `none` models the AssertionError aborting before the final
`cls._headers = headers` assignment. -/
def set_headers : Headers → Option Headers
  | [] => some []
  | kv :: t =>
    match sanitizeEntry kv with
    | none => none
    | some kv2 =>
      match set_headers t with
      | none => none
      | some t2 => some (kv2 :: t2)

/-- The effect of a `Default.set_headers` call on the stored class attribute
`Default._headers`: an assertion failure leaves the previous value in place
(the exception propagates before the assignment on line 54 runs). -/
def set_headers_run (old : Headers) (headers : Headers) : Headers :=
  match set_headers headers with
  | none => old
  | some s => s

/-- The two route-table class attributes of web_util.WebPathMap that
`WebPathHandler.__init_subclass__` mutates. -/
structure RouteState where
  paths : List (String × PathTable)
  regexPaths : List (String × PathTable)
deriving DecidableEq, Repr

/-- The shipped WebPathMap state: exact tables with the "/" sentinel, empty
regex tables (web_util.py lines 136-177). -/
def defaultRouteState : RouteState :=
  { paths := defaultPATHS
    regexPaths := [("CONNECT", []), ("DELETE", []), ("GET", []), ("PATCH", []),
                   ("POST", []), ("PUT", [])] }

/-- The inner `for path in cls.PATHS` loop (web_util.py lines 230-233 and
235-238): check-then-overwrite each path into one method's table, collecting
the printed overwrite warnings in order. -/
def registerPathsInto (m : String) (cls : HandlerClass) (tag : String)
    (clsPaths : List String) (tbl : PathTable) (warns : List String) :
    PathTable × List String :=
  clsPaths.foldl
    (fun a p =>
      ((dictSet a.1 p (some cls)),
       if dictContains a.1 p then a.2 ++ ["[Warning] Overwriting " ++ m ++ " " ++ p ++ tag]
       else a.2))
    (tbl, warns)

/-- The `for method in cls.METHODS` loop of `__init_subclass__`
(web_util.py lines 226-238).  A method absent from `WebPathMap.PATHS`
raises KeyError (line 228); the regex tables share the same six keys, so a
missing regex entry would likewise surface as a KeyError. -/
def initSubclassGo (cls : HandlerClass) (clsPaths clsRegexPaths : List String) :
    List String → RouteState → List String → Except String (RouteState × List String)
  | [], st, warns => .ok (st, warns)
  | m :: ms, st, warns =>
    match dictGet? st.paths m with
    | none => .error ("Unsupported HTTP method: " ++ m)
    | some tbl =>
      let r1 := registerPathsInto m cls "" clsPaths tbl warns
      let st1 := { st with paths := dictSet st.paths m r1.1 }
      match dictGet? st1.regexPaths m with
      | none => .error ("KeyError: " ++ m)
      | some rtbl =>
        let r2 := registerPathsInto m cls " (RegEx)" clsRegexPaths rtbl r1.2
        let st2 := { st1 with regexPaths := dictSet st1.regexPaths m r2.1 }
        initSubclassGo cls clsPaths clsRegexPaths ms st2 r2.2

/-- WebPathHandler.__init_subclass__ (web_util.py lines 190-239): the
validity checks on METHODS/PATHS (lines 197-200) followed by the
registration loops.  Returns the updated route tables and the warnings
printed, or the KeyError message raised. -/
def initSubclass (st : RouteState) (METHODS clsPaths clsRegexPaths : List String)
    (cls : HandlerClass) : Except String (RouteState × List String) :=
  if METHODS.length = 0 then .error "At least one method must be defined"
  else if clsPaths.length + clsRegexPaths.length = 0 then
    .error "At least one path must be defined"
  else initSubclassGo cls clsPaths clsRegexPaths METHODS st []

/-- Lookup of a (method, path) binding in the exact route tables. -/
def routeLookup (mp : List (String × PathTable)) (m p : String) :
    Option (Option HandlerClass) :=
  match dictGet? mp m with
  | none => none
  | some tbl => dictGet? tbl p

/-- The Content-Length accumulation loop of `_init_response` (web_server.py
lines 78-82): `recv_data = self.rfile.read(content_len)` followed by
`while recv_data: payload += recv_data; content_len -= len(recv_data);
recv_data = self.rfile.read(content_len)`.

The stream is the list of byte segments a blocking buffered `read(k)` call
yields: each read returns the next segment, truncated to `k` bytes; `read(0)`
and reads at end-of-stream return `b''`, ending the loop.  The recursion
follows the segments: a full-segment read recurses on the rest, a truncated
read (segment longer than the remaining count) leaves `content_len` at zero,
so the following `read(0)` returns `b''` and the loop stops there. -/
def readLoop (content_len : Nat) : List (List Nat) → List Nat
  | [] => []
  | seg :: rest =>
    if content_len = 0 then []
    else if seg.length ≤ content_len then
      if seg = [] then []
      else seg ++ readLoop (content_len - seg.length) rest
    else seg.take content_len

/-- `rfile.readline()` over a flat byte stream: everything up to and
including the first LF (byte 10), or the whole remainder if none. -/
def readlineB : List Nat → List Nat × List Nat
  | [] => ([], [])
  | c :: rest =>
    if c = 10 then ([c], rest)
    else
      let r := readlineB rest
      (c :: r.1, r.2)

/-- Python `bytes` ASCII whitespace, as stripped by `bytes.strip()`. -/
def isPySpace (c : Nat) : Bool :=
  c = 32 || c = 9 || c = 10 || c = 13 || c = 11 || c = 12

/-- Python `bytes.strip()`. -/
def bstrip (s : List Nat) : List Nat :=
  ((s.dropWhile isPySpace).reverse.dropWhile isPySpace).reverse

/-- Value of an ASCII hexadecimal digit byte. -/
def hexDigitVal? (c : Nat) : Option Nat :=
  if 48 ≤ c ∧ c ≤ 57 then some (c - 48)
  else if 97 ≤ c ∧ c ≤ 102 then some (c - 87)
  else if 65 ≤ c ∧ c ≤ 70 then some (c - 55)
  else none

/-- One step of most-significant-first hexadecimal accumulation. -/
def hexStep (acc : Option Nat) (c : Nat) : Option Nat :=
  match acc, hexDigitVal? c with
  | some a, some d => some (a * 16 + d)
  | _, _ => none

/-- Python `int(s, 16)` on unsigned hexadecimal numerals (the only form a
well-formed chunk-size line carries); the empty string raises ValueError. -/
def parseHexNat? (s : List Nat) : Option Nat :=
  match s with
  | [] => none
  | _ => s.foldl hexStep (some 0)

/-- The chunked-transfer read loop of `_init_response` (web_server.py lines
84-91): read a size line, parse it as hexadecimal, read that many payload
bytes, skip the 2-byte chunk tail, and stop after a zero-size chunk.  A
malformed (or exhausted — `readline` then yields `b''`) size line raises
ValueError; the exception aborts the request, so no payload is produced. -/
theorem readlineB_snd_lt : ∀ s : List Nat, s ≠ [] → (readlineB s).2.length < s.length
  | [], h => absurd rfl h
  | c :: rest, _ => by
    by_cases hc : c = 10
    · simp [readlineB, hc]
    · rcases rest with _ | ⟨c2, rest2⟩
      · simp [readlineB, hc]
      · have := readlineB_snd_lt (c2 :: rest2) (by simp)
        simp only [readlineB, hc, if_false]
        simpa using Nat.lt_succ_of_lt this

def readChunks (s : List Nat) : Except String (List Nat) :=
  if hs : s = [] then .error "ValueError"
  else
    match parseHexNat? (bstrip (readlineB s).1) with
    | none => .error "ValueError"
    | some 0 => .ok []
    | some (n + 1) =>
      match readChunks (((readlineB s).2.drop (n + 1)).drop 2) with
      | .ok rest => .ok ((readlineB s).2.take (n + 1) ++ rest)
      | .error e => .error e
termination_by s.length
decreasing_by
  have hlt : (readlineB s).2.length < s.length := readlineB_snd_lt s hs
  calc (((readlineB s).2.drop (n + 1)).drop 2).length
      ≤ (readlineB s).2.length := by simp only [List.length_drop]; omega
    _ < s.length := hlt

/-- Python `p in s` (substring containment) on character lists. -/
def isSubB : List Char → List Char → Bool
  | p, [] => p.isEmpty
  | p, c :: t => (p.isPrefixOf (c :: t)) || isSubB p t

/-- Python `p in s` for strings. -/
def strIn (p s : String) : Bool := isSubB p.data s.data

/-- Python ASCII whitespace for `str` values (as stripped by `int()`). -/
def isStrSpace (c : Char) : Bool :=
  c == ' ' || c == '\t' || c == '\n' || c == '\r' || c == '\x0b' || c == '\x0c'

/-- One step of decimal accumulation. -/
def decStep (acc : Option Nat) (c : Char) : Option Nat :=
  if '0' ≤ c ∧ c ≤ '9' then acc.map (fun a => a * 10 + (c.toNat - 48)) else none

/-- Decimal numeral parse; empty input fails. -/
def parseDecNat? (ds : List Char) : Option Nat :=
  match ds with
  | [] => none
  | _ => ds.foldl decStep (some 0)

/-- Python `int(s)` on the forms a Content-Length header can carry: optional
surrounding whitespace, optional sign, ASCII decimal digits (digit-grouping
underscores and non-ASCII digits are not modelled).  `none` is ValueError. -/
def pyIntDec? (s : String) : Option Int :=
  let t := ((s.data.dropWhile isStrSpace).reverse.dropWhile isStrSpace).reverse
  match t with
  | '-' :: ds => (parseDecNat? ds).map (fun n => -(n : Int))
  | '+' :: ds => (parseDecNat? ds).map (fun n => (n : Int))
  | ds => (parseDecNat? ds).map (fun n => (n : Int))

/-- web_util.COMPRESSION_SCHEMES. -/
def COMPRESSION_SCHEMES : List String := ["gzip", "x-gzip", "compress", "deflate", "br"]

/-- The first request-header scan of `_init_response` (web_server.py lines
45-53): `has_content_len_hdr` becomes true if any header named
content-length (case-insensitively) parses as an int. -/
def scanHasContentLen (headers : Headers) : Bool :=
  headers.any (fun kv => strLower kv.1 == "content-length" && (pyIntDec? kv.2).isSome)

/-- The second request-header scan (web_server.py lines 57-76), threading
`(content_len, compression, chunked)` through the headers in order: a later
Content-Length overwrites an earlier one, an unparsable one is ignored, a
Content-Encoding naming a known scheme records the raw header value, and a
Transfer-Encoding containing "chunked" sets the flag. -/
def scanBodyHeaders (headers : Headers) : Int × Option String × Bool :=
  headers.foldl
    (fun acc kv =>
      let hl := strLower kv.1
      if hl == "content-length" then
        match pyIntDec? kv.2 with
        | some n => (n, acc.2.1, acc.2.2)
        | none => acc
      else if hl == "content-encoding" then
        if COMPRESSION_SCHEMES.any (fun cs => strIn cs kv.2) then (acc.1, some kv.2, acc.2.2)
        else acc
      else if hl == "transfer-encoding" then
        if strIn "chunked" kv.2 then (acc.1, acc.2.1, true) else acc
      else acc)
    (0, none, false)

/-- The body-acquisition part of `_init_response` (web_server.py lines
45-97), producing `self.req_payload` together with the `compression` value
that line 93-96 would hand to the (external, unmodelled) gzip decompressor;
a ValueError escaping the chunked loop aborts the request.  The chunked
branch issues exact-size buffered reads, modelled over the flattened byte
stream. -/
def initReqPayload (command : String) (headers : Headers) (segs : List (List Nat)) :
    Except String (List Nat × Option String) :=
  if command = "POST" ∨ command = "PUT" ∨ scanHasContentLen headers then
    let r := scanBodyHeaders headers
    if 0 < r.1 then .ok (readLoop r.1.toNat segs, r.2.1)
    else if r.2.2 then
      match readChunks segs.flatten with
      | .ok payload => .ok (payload, r.2.1)
      | .error e => .error e
    else .ok ([], r.2.1)
  else .ok ([], none)

/-- What `_send_pending_response` (web_server.py lines 100-125) puts on the
wire: the status line (`send_response`), the response headers in order —
after the in-place Content-Length injection of lines 103-104 — and the body.
The `send_header` override (lines 32-35) drops any header named server
(case-insensitively) when the banner is `None`.  The Server/Date headers the
base class emits from `send_response` are outside the response-header dict
and not modelled. -/
structure SentResponse where
  statusLine : Nat
  headersSent : Headers
  bodySent : List Nat
deriving DecidableEq, Repr

/-- web_server.py `_send_pending_response`, for request method `command`,
process banner `banner`, and the handler-built response `resp`. -/
def sendPendingResponse (banner : Option String) (command : String)
    (resp : ResponseContainer) : SentResponse :=
  let hdrs :=
    if 0 < resp.body.length then
      dictSet resp.headers "Content-Length" (toString resp.body.length)
    else resp.headers
  { statusLine := resp.status_code
    headersSent := hdrs.filter (fun kv => !(strLower kv.1 == "server" && banner.isNone))
    bodySent :=
      if command ≠ "HEAD" ∧ command ≠ "OPTIONS" ∧ 0 < resp.body.length then resp.body
      else [] }

deriving instance DecidableEq for Except

/-- An ASCII hexadecimal digit byte (lowercase letters, as Python prints
them; the reader accepts either case). -/
def hexDigitChar (d : Nat) : Nat := if d < 10 then 48 + d else 87 + d

/-- Most-significant-first hexadecimal digits of `n` (empty for 0). -/
def hexEncodeAux (n : Nat) : List Nat :=
  if h : n = 0 then [] else hexEncodeAux (n / 16) ++ [hexDigitChar (n % 16)]
termination_by n
decreasing_by exact Nat.div_lt_self (Nat.pos_of_ne_zero h) (by norm_num)

/-- The hexadecimal numeral for `n`, as a byte string. -/
def hexEncode (n : Nat) : List Nat := if n = 0 then [48] else hexEncodeAux n

/-- One chunk on the wire: hexadecimal size line, CRLF, payload, CRLF. -/
def chunkEncode (c : List Nat) : List Nat :=
  hexEncode c.length ++ [13, 10] ++ c ++ [13, 10]

/-- A whole chunked-transfer body: the encoded chunks followed by the
zero-size terminal chunk `0 CRLF CRLF`. -/
def chunkedWire (chunks : List (List Nat)) : List Nat :=
  (chunks.map chunkEncode).flatten ++ [48, 13, 10, 13, 10]

/-! ## Association-list (Python dict) lemmas -/

theorem dictGet?_dictSet_self {α : Type} (l : List (String × α)) (k : String) (v : α) :
    dictGet? (dictSet l k v) k = some v := by
  induction l with
  | nil => simp [dictSet, dictGet?]
  | cons kv t ih =>
    by_cases h : kv.1 = k
    · simp [dictSet, dictGet?, h]
    · simp [dictSet, dictGet?, h, ih]

theorem dictGet?_dictSet_other {α : Type} (l : List (String × α)) (k k' : String) (v : α)
    (hne : k' ≠ k) : dictGet? (dictSet l k v) k' = dictGet? l k' := by
  induction l with
  | nil => simp [dictSet, dictGet?, Ne.symm hne]
  | cons kv t ih =>
    by_cases h : kv.1 = k
    · simp [dictSet, dictGet?, h, Ne.symm hne]
    · by_cases h2 : kv.1 = k'
      · simp [dictSet, dictGet?, h, h2, hne]
      · simp [dictSet, dictGet?, h, h2, ih]

theorem dictSet_of_get {α : Type} (l : List (String × α)) (k : String) (v : α)
    (h : dictGet? l k = some v) : dictSet l k v = l := by
  induction l with
  | nil => simp [dictGet?] at h
  | cons kv t ih =>
    by_cases hk : kv.1 = k
    · simp only [dictGet?, hk, if_pos] at h
      cases kv
      simp_all [dictSet]
    · simp only [dictGet?, hk, if_neg, if_false] at h
      simp [dictSet, hk, ih h]

theorem mem_dictSet_self {α : Type} (l : List (String × α)) (k : String) (v : α) :
    (k, v) ∈ dictSet l k v := by
  induction l with
  | nil => simp [dictSet]
  | cons kv t ih =>
    by_cases h : kv.1 = k
    · simp [dictSet, h]
    · simp [dictSet, h, ih]

/-! ## C2 / C3: HEAD and OPTIONS against a sentinel-bound path -/

/-- C2: for a path whose first matching table entry binds a real handler, an
OPTIONS request does produce 204 with the comma-space Allow list; but for a
path whose (first) matching entry is the no-handler sentinel — e.g. the
default "/" present under every method — line 134 of web_server.py evaluates
`None.DISABLE_OPTIONS_REQUESTS` and the request dies with an uncaught
AttributeError instead of returning the claimed 204 response. -/
theorem c2_options_sentinel_attribute_error :
    dispatch [] (mkPATHS [] [] [("/a", some ⟨1, false, false⟩)] [] [("/a", some ⟨2, false, false⟩)] [])
        "OPTIONS" "/a" = .resp ⟨204, [("Allow", "GET, POST")], []⟩
    ∧ dispatch exampleDefaultHeaders defaultPATHS "OPTIONS" "/" = .attrError := by
  exact ⟨by decide, by decide⟩

/-- C3: a request matching the sentinel under its own method does get the
bare 200 with the process default headers and empty body (first conjunct,
GET "/"), but a HEAD request matching the sentinel entry crashes with an
AttributeError at line 134 of web_server.py (`None.DISABLE_HEAD_REQUESTS`)
instead of producing the claimed 200. -/
theorem c3_head_sentinel_attribute_error :
    dispatch exampleDefaultHeaders defaultPATHS "GET" "/" = .resp (RESP_OK exampleDefaultHeaders)
    ∧ dispatch exampleDefaultHeaders defaultPATHS "HEAD" "/" = .attrError := by
  exact ⟨by decide, by decide⟩

/-! ## C4: get_url_query_param -/

/-- C4 counterexample: with key "a" bound to the two values "x", "y", the
case-sensitive lookup returns the whole Python list of values, not the first
value as a single string (endpoints.py line 101 accordingly indexes the
returned list with `[0]`). -/
theorem c4_counterexample :
    get_url_query_param [("a", ["x", "y"])] "a" "d" true = ["x", "y"] ∧
    get_url_query_param [("a", ["x", "y"])] "a" "d" true ≠ ["x"] := by
  exact ⟨by decide, by decide⟩

/-- C4 (amended): case-sensitive query lookup returns the full list of
values bound to the key, and the one-element list holding the default when
the key is absent. -/
theorem c4_query_param_list (q : List (String × List String)) (key default_val : String) :
    (∀ vs, dictGet? q key = some vs → get_url_query_param q key default_val true = vs)
    ∧ (dictGet? q key = none → get_url_query_param q key default_val true = [default_val]) := by
  constructor
  · intro vs h
    simp [get_url_query_param, dictContains, h]
  · intro h
    simp [get_url_query_param, dictContains, h]

/-- C4 witness. -/
theorem c4_query_param_list_witness :
    get_url_query_param [("a", ["x", "y"])] "a" "d" true = ["x", "y"]
    ∧ get_url_query_param [("b", ["z"])] "a" "d" true = ["d"] := by
  exact ⟨(c4_query_param_list [("a", ["x", "y"])] "a" "d").1 ["x", "y"] (by decide),
         (c4_query_param_list [("b", ["z"])] "a" "d").2 (by decide)⟩

/-! ## C1: 405 versus exact-match precedence for non-HEAD/OPTIONS methods -/

/-- For a method other than HEAD/OPTIONS, once the loop reaches the entry of
the request's own method and the path is bound there, that binding decides
the outcome (sentinel gives bare 200, handler class is invoked), whatever
`pending_resp` already holds. -/
theorem dispatchGo_exact (defs : Headers) (allPaths : List (String × PathTable))
    (command p : String) (hh : command ≠ "HEAD") (ho : command ≠ "OPTIONS") :
    ∀ (l : List (String × PathTable)) (pending : Option ResponseContainer)
      (tblc : PathTable) (ph : Option HandlerClass),
      dictGet? l command = some tblc → dictGet? tblc p = some ph →
      dispatchGo defs allPaths command p pending l =
        (match ph with
         | none => .resp (RESP_OK defs)
         | some h => .invoked h) := by
  intro l
  induction l with
  | nil => intro pending tblc ph hl; simp [dictGet?] at hl
  | cons e rest ih =>
    intro pending tblc ph hl hp
    obtain ⟨m, tbl⟩ := e
    by_cases hm : m = command
    · subst hm
      simp only [dictGet?, if_pos] at hl
      cases hl
      simp [dispatchGo, hp, disableCheck, hh, ho]
    · simp only [dictGet?, hm, if_neg, if_false] at hl
      have hcond : ¬(m = command ∨ command = "HEAD" ∨ command = "OPTIONS") := by
        simp [hm, hh, ho]
      cases hgp : dictGet? tbl p with
      | none => simpa [dispatchGo, hcond, hgp] using ih pending tblc ph hl hp
      | some ph' =>
        simpa [dispatchGo, hcond, hgp] using
          ih (some (RESP_BAD_METHOD defs)) tblc ph hl hp

/-- For a method other than HEAD/OPTIONS, if no table entry of the request's
own method binds the path but some entry does (or a 405 is already pending),
the loop ends with the 405 response. -/
theorem dispatchGo_405 (defs : Headers) (allPaths : List (String × PathTable))
    (command p : String) (hh : command ≠ "HEAD") (ho : command ≠ "OPTIONS") :
    ∀ (l : List (String × PathTable)) (pending : Option ResponseContainer),
      (∀ e ∈ l, e.1 = command → dictGet? e.2 p = none) →
      ((∃ e ∈ l, dictGet? e.2 p ≠ none) ∨ pending = some (RESP_BAD_METHOD defs)) →
      dispatchGo defs allPaths command p pending l = .resp (RESP_BAD_METHOD defs) := by
  intro l
  induction l with
  | nil =>
    intro pending _ hex
    rcases hex with ⟨e, he, _⟩ | hp
    · simp at he
    · simp [dispatchGo, hp]
  | cons e rest ih =>
    intro pending hown hex
    obtain ⟨m, tbl⟩ := e
    by_cases hm : m = command
    · have htbl : dictGet? tbl p = none := hown (m, tbl) (by simp) hm
      have hcond : m = command ∨ command = "HEAD" ∨ command = "OPTIONS" := Or.inl hm
      have hrest : (∃ e ∈ rest, dictGet? e.2 p ≠ none) ∨
          pending = some (RESP_BAD_METHOD defs) := by
        rcases hex with ⟨e', he', hne⟩ | hp
        · rcases List.mem_cons.mp he' with rfl | hmem
          · exact absurd htbl hne
          · exact Or.inl ⟨e', hmem, hne⟩
        · exact Or.inr hp
      simpa [dispatchGo, hcond, htbl] using
        ih pending (fun e he => hown e (List.mem_cons_of_mem _ he)) hrest
    · have hcond : ¬(m = command ∨ command = "HEAD" ∨ command = "OPTIONS") := by
        simp [hm, hh, ho]
      cases hgp : dictGet? tbl p with
      | none =>
        have hrest : (∃ e ∈ rest, dictGet? e.2 p ≠ none) ∨
            pending = some (RESP_BAD_METHOD defs) := by
          rcases hex with ⟨e', he', hne⟩ | hp
          · rcases List.mem_cons.mp he' with rfl | hmem
            · exact absurd hgp hne
            · exact Or.inl ⟨e', hmem, hne⟩
          · exact Or.inr hp
        simpa [dispatchGo, hcond, hgp] using
          ih pending (fun e he => hown e (List.mem_cons_of_mem _ he)) hrest
      | some ph' =>
        simpa [dispatchGo, hcond, hgp] using
          ih (some (RESP_BAD_METHOD defs))
            (fun e he => hown e (List.mem_cons_of_mem _ he)) (Or.inr rfl)

/-- C1: for a request whose method is neither HEAD nor OPTIONS, (i) if the
path is bound in no table entry of the request's own method but in at least
one other method's table, the dispatcher answers 405 rather than 404; and
(ii) whenever the request's own method's table binds the path, that binding
decides the outcome — sentinel gives the bare 200, a handler class is
instantiated and invoked — for arbitrary contents of the six per-method
tables, i.e. independently of where in the scan order the match sits. -/
theorem c1_cross_method_405_exact_wins (defs : Headers) (c d g pa po pu : PathTable)
    (command p : String) (hh : command ≠ "HEAD") (ho : command ≠ "OPTIONS") :
    ((∀ e ∈ mkPATHS c d g pa po pu, e.1 = command → dictGet? e.2 p = none) →
     (∃ e ∈ mkPATHS c d g pa po pu, dictGet? e.2 p ≠ none) →
     dispatch defs (mkPATHS c d g pa po pu) command p = .resp (RESP_BAD_METHOD defs))
    ∧ (∀ (tblc : PathTable) (ph : Option HandlerClass),
       dictGet? (mkPATHS c d g pa po pu) command = some tblc →
       dictGet? tblc p = some ph →
       dispatch defs (mkPATHS c d g pa po pu) command p =
         (match ph with
          | none => .resp (RESP_OK defs)
          | some h => .invoked h)) := by
  constructor
  · intro hown hex
    exact dispatchGo_405 defs _ command p hh ho _ none hown (Or.inl hex)
  · intro tblc ph hl hp
    exact dispatchGo_exact defs _ command p hh ho _ none tblc ph hl hp

/-- C1 witness: path "/a" registered only under GET; a POST request gets
405; a GET request reaches the sentinel binding and gets the bare 200. -/
theorem c1_cross_method_405_exact_wins_witness :
    dispatch [] (mkPATHS [] [] [("/a", none)] [] [] []) "POST" "/a" = .resp (RESP_BAD_METHOD [])
    ∧ dispatch [] (mkPATHS [] [] [("/a", none)] [] [] []) "GET" "/a" = .resp (RESP_OK []) := by
  constructor
  · exact (c1_cross_method_405_exact_wins [] [] [] [("/a", none)] [] [] [] "POST" "/a"
      (by decide) (by decide)).1 (by decide) ⟨("GET", [("/a", none)]), by decide⟩
  · exact (c1_cross_method_405_exact_wins [] [] [] [("/a", none)] [] [] [] "GET" "/a"
      (by decide) (by decide)).2 [("/a", none)] none (by decide) (by decide)

/-! ## C10: HEAD expanded matching takes the first table containing the path -/

/-- C10: a HEAD request scans CONNECT, DELETE, GET, PATCH, POST, PUT in that
order and takes the binding from the first table containing the path: with
the path absent from the CONNECT/DELETE/GET/PATCH tables and bound to a
handler class under POST, the POST handler is invoked — regardless of the
PUT table — unless its DISABLE_HEAD_REQUESTS flag makes it a 405. -/
theorem c10_head_first_table_wins (defs : Headers) (c d g pa po pu : PathTable)
    (p : String) (h : HandlerClass)
    (hc : dictGet? c p = none) (hd : dictGet? d p = none) (hg : dictGet? g p = none)
    (hpa : dictGet? pa p = none) (hpo : dictGet? po p = some (some h)) :
    dispatch defs (mkPATHS c d g pa po pu) "HEAD" p =
      (if h.DISABLE_HEAD_REQUESTS then .resp (RESP_BAD_METHOD defs) else .invoked h) := by
  by_cases hf : h.DISABLE_HEAD_REQUESTS
  · simp [dispatch, mkPATHS, dispatchGo, hc, hd, hg, hpa, hpo, disableCheck, hf]
  · simp [dispatch, mkPATHS, dispatchGo, hc, hd, hg, hpa, hpo, disableCheck, hf]

/-- C10 witness: HEAD to a path bound only under POST (and, differently,
under PUT) invokes the POST handler; with DISABLE_HEAD_REQUESTS set it
yields 405. -/
theorem c10_head_first_table_wins_witness :
    dispatch [] (mkPATHS [] [] [] [] [("/x", some ⟨5, false, false⟩)] [("/x", some ⟨9, false, false⟩)])
        "HEAD" "/x" = .invoked ⟨5, false, false⟩
    ∧ dispatch [] (mkPATHS [] [] [] [] [("/x", some ⟨6, true, false⟩)] [])
        "HEAD" "/x" = .resp (RESP_BAD_METHOD []) := by
  constructor
  · have := c10_head_first_table_wins [] [] [] [] [] [("/x", some ⟨5, false, false⟩)]
      [("/x", some ⟨9, false, false⟩)] "/x" ⟨5, false, false⟩
      (by decide) (by decide) (by decide) (by decide) (by decide)
    simpa using this
  · have := c10_head_first_table_wins [] [] [] [] [] [("/x", some ⟨6, true, false⟩)]
      [] "/x" ⟨6, true, false⟩
      (by decide) (by decide) (by decide) (by decide) (by decide)
    simpa using this

/-! ## C8: Default.set_headers validation and normalization -/

theorem sanitizeEntry_none_of_bad (kv : String × String)
    (h : ∃ c ∈ bad_chars, strContainsChar kv.1 c = true) : sanitizeEntry kv = none := by
  obtain ⟨ch, hc, hcont⟩ := h
  have : bad_chars.any (fun c => strContainsChar kv.1 c) = true :=
    List.any_eq_true.mpr ⟨ch, hc, hcont⟩
  simp [sanitizeEntry, this]

theorem clean_value_no_crlf (v : String) :
    strContainsChar (replaceChar (replaceChar v '\n' ' ') '\r' ' ') '\r' = false
    ∧ strContainsChar (replaceChar (replaceChar v '\n' ' ') '\r' ' ') '\n' = false := by
  constructor
  · simp only [strContainsChar, replaceChar, List.any_map, List.any_eq_false]
    intro x _
    by_cases h1 : x = '\n' <;> by_cases h2 : x = '\r' <;>
      simp [Function.comp, h1, h2]
  · simp only [strContainsChar, replaceChar, List.any_map, List.any_eq_false]
    intro x _
    by_cases h1 : x = '\n' <;> by_cases h2 : x = '\r' <;>
      simp [Function.comp, h1, h2]

/-- C8: a defaults mapping holding any key with a space, colon, CR, LF, tab,
backspace or NUL character is rejected (`set_headers` raises before the
stored mapping is assigned, so the previous defaults survive); and every
value stored by an accepted call has its CR and LF characters replaced, so
no stored value contains either. -/
theorem c8_set_headers_validation (old hs : Headers) :
    ((∃ kv ∈ hs, ∃ c ∈ bad_chars, strContainsChar kv.1 c = true) →
       set_headers hs = none ∧ set_headers_run old hs = old)
    ∧ (∀ res, set_headers hs = some res →
       ∀ kv ∈ res, strContainsChar kv.2 '\r' = false ∧ strContainsChar kv.2 '\n' = false) := by
  constructor
  · intro hbad
    have hnone : set_headers hs = none := by
      induction hs with
      | nil => simp at hbad
      | cons kv t ih =>
        rcases hbad with ⟨kv', hkv', hbad'⟩
        rcases List.mem_cons.mp hkv' with rfl | hmem
        · simp [set_headers, sanitizeEntry_none_of_bad kv' hbad']
        · cases hse : sanitizeEntry kv with
          | none => simp [set_headers, hse]
          | some kv2 => simp [set_headers, hse, ih ⟨kv', hmem, hbad'⟩]
    exact ⟨hnone, by simp [set_headers_run, hnone]⟩
  · intro res hres kv hkv
    induction hs generalizing res with
    | nil =>
      simp only [set_headers, Option.some.injEq] at hres
      subst hres
      simp at hkv
    | cons kv0 t ih =>
      cases hse : sanitizeEntry kv0 with
      | none => simp [set_headers, hse] at hres
      | some kv2 =>
        cases hst : set_headers t with
        | none => simp [set_headers, hse, hst] at hres
        | some t2 =>
          simp only [set_headers, hse, hst, Option.some.injEq] at hres
          subst hres
          rcases List.mem_cons.mp hkv with rfl | hmem
          · have hv : (kv0.1, replaceChar (replaceChar kv0.2 '\n' ' ') '\r' ' ') = kv := by
              by_cases hb : bad_chars.any (fun c => strContainsChar kv0.1 c)
              · simp [sanitizeEntry, hb] at hse
              · simpa [sanitizeEntry, hb] using hse
            rw [← hv]
            exact clean_value_no_crlf kv0.2
          · exact ih t2 hst hmem

/-- C8 witness: a key containing a space is rejected leaving the stored
defaults untouched, and an accepted value with embedded CR/LF is stored
clean. -/
theorem c8_set_headers_validation_witness :
    (set_headers [("Bad Key", "v")] = none
      ∧ set_headers_run exampleDefaultHeaders [("Bad Key", "v")] = exampleDefaultHeaders)
    ∧ ∀ kv ∈ [("XK", "a  b")],
        strContainsChar kv.2 '\r' = false ∧ strContainsChar kv.2 '\n' = false := by
  constructor
  · exact (c8_set_headers_validation exampleDefaultHeaders [("Bad Key", "v")]).1
      ⟨("Bad Key", "v"), by decide, ' ', by decide, by decide⟩
  · exact (c8_set_headers_validation exampleDefaultHeaders [("XK", "a\r\nb")]).2
      [("XK", "a  b")] (by decide)

/-! ## C9: handler registration overwrites with a warning, never removes -/

/-- The table component accumulated by `registerPathsInto` is a fold of
in-place dict updates. -/
theorem registerPathsInto_fst (m : String) (cls : HandlerClass) (tag : String) :
    ∀ (ps : List String) (tbl : PathTable) (ws : List String),
      (registerPathsInto m cls tag ps tbl ws).1 =
        ps.foldl (fun t p => dictSet t p (some cls)) tbl := by
  intro ps
  induction ps with
  | nil => intro tbl ws; simp [registerPathsInto]
  | cons p t ih =>
    intro tbl ws
    simp only [registerPathsInto, List.foldl_cons] at ih ⊢
    exact ih (dictSet tbl p (some cls)) _

theorem foldl_dictSet_isSome (cls : HandlerClass) :
    ∀ (ps : List String) (tbl : PathTable) (q : String),
      (dictGet? tbl q).isSome →
      (dictGet? (ps.foldl (fun t p => dictSet t p (some cls)) tbl) q).isSome := by
  intro ps
  induction ps with
  | nil => intro tbl q h; simpa using h
  | cons p t ih =>
    intro tbl q h
    refine ih (dictSet tbl p (some cls)) q ?_
    by_cases hpq : q = p
    · subst hpq; simp [dictGet?_dictSet_self]
    · rw [dictGet?_dictSet_other tbl p q _ hpq]; exact h

/-- Bindings are never removed by `initSubclassGo`: any (method, path)
resolvable before a successful registration is still resolvable after. -/
theorem initSubclassGo_preserves (cls : HandlerClass) (ps rps : List String) :
    ∀ (ms : List String) (st : RouteState) (ws : List String) (st' : RouteState)
      (ws' : List String),
      initSubclassGo cls ps rps ms st ws = .ok (st', ws') →
      ∀ m' p', (routeLookup st.paths m' p').isSome → (routeLookup st'.paths m' p').isSome := by
  intro ms
  induction ms with
  | nil =>
    intro st ws st' ws' h m' p' hsome
    simp only [initSubclassGo, Except.ok.injEq, Prod.mk.injEq] at h
    obtain ⟨rfl, rfl⟩ := h
    exact hsome
  | cons m ms ih =>
    intro st ws st' ws' h m' p' hsome
    simp only [initSubclassGo] at h
    cases hm : dictGet? st.paths m with
    | none => rw [hm] at h; exact absurd h (by simp)
    | some tbl =>
      rw [hm] at h
      cases hr : dictGet? st.regexPaths m with
      | none => rw [hr] at h; exact absurd h (by simp)
      | some rtbl =>
        rw [hr] at h
        refine ih _ _ _ _ h m' p' ?_
        simp only [routeLookup] at hsome ⊢
        by_cases hmm : m' = m
        · subst hmm
          rw [dictGet?_dictSet_self]
          rw [hm] at hsome
          rw [registerPathsInto_fst]
          exact foldl_dictSet_isSome cls ps tbl p' hsome
        · rw [dictGet?_dictSet_other _ _ _ _ hmm]
          exact hsome

/-- C9: registering a handler class for a (method, path) pair already bound
in the exact route table succeeds with exactly the overwrite warning, the
pair afterwards resolves to the new class, every other (method, path)
binding is untouched; and — for any successful registration whatsoever — no
binding is ever removed from the table. -/
theorem c9_register_overwrite_warns (st : RouteState) (m p : String) (tbl : PathTable)
    (old : Option HandlerClass) (rtbl : PathTable) (cls : HandlerClass)
    (hm : dictGet? st.paths m = some tbl) (hp : dictGet? tbl p = some old)
    (hr : dictGet? st.regexPaths m = some rtbl) :
    (initSubclass st [m] [p] [] cls =
        .ok ({ st with paths := dictSet st.paths m (dictSet tbl p (some cls)) },
             ["[Warning] Overwriting " ++ m ++ " " ++ p])
      ∧ routeLookup (dictSet st.paths m (dictSet tbl p (some cls))) m p = some (some cls)
      ∧ ∀ m' p', ¬(m' = m ∧ p' = p) →
          routeLookup (dictSet st.paths m (dictSet tbl p (some cls))) m' p'
            = routeLookup st.paths m' p')
    ∧ (∀ METHODS ps rps cls2 st' ws,
        initSubclass st METHODS ps rps cls2 = .ok (st', ws) →
        ∀ m' p', (routeLookup st.paths m' p').isSome →
          (routeLookup st'.paths m' p').isSome) := by
  have hreg : dictSet st.regexPaths m rtbl = st.regexPaths := dictSet_of_get _ _ _ hr
  have hcont : dictContains tbl p = true := by simp [dictContains, hp]
  constructor
  · refine ⟨?_, ?_, ?_⟩
    · simp [initSubclass, initSubclassGo, hm, hr, hreg, registerPathsInto, hcont]
    · simp [routeLookup, dictGet?_dictSet_self]
    · intro m' p' hne
      by_cases hmm : m' = m
      · subst hmm
        have hpp : p' ≠ p := fun hpp => hne ⟨rfl, hpp⟩
        simp only [routeLookup, dictGet?_dictSet_self, hm]
        rw [dictGet?_dictSet_other _ _ _ _ hpp]
      · simp only [routeLookup]
        rw [dictGet?_dictSet_other _ _ _ _ hmm]
  · intro METHODS ps rps cls2 st' ws h m' p' hsome
    by_cases h1 : METHODS.length = 0
    · simp [initSubclass, h1] at h
    · by_cases h2 : ps.length + rps.length = 0
      · simp [initSubclass, h1, h2] at h
      · simp only [initSubclass, h1, h2, if_false, if_neg, not_false_iff] at h
        exact initSubclassGo_preserves cls2 ps rps METHODS st [] st' ws h m' p' hsome

/-- C9 witness: re-registering GET "/" (initially the sentinel) with a new
handler class replaces the binding, warns, and leaves POST "/" in place. -/
theorem c9_register_overwrite_warns_witness :
    initSubclass defaultRouteState ["GET"] ["/"] [] ⟨7, false, false⟩ =
      .ok ({ defaultRouteState with
             paths := dictSet defaultRouteState.paths "GET"
               (dictSet [("/", none)] "/" (some ⟨7, false, false⟩)) },
           ["[Warning] Overwriting GET /"])
    ∧ routeLookup (dictSet defaultRouteState.paths "GET"
        (dictSet [("/", none)] "/" (some ⟨7, false, false⟩))) "GET" "/"
        = some (some ⟨7, false, false⟩)
    ∧ routeLookup (dictSet defaultRouteState.paths "GET"
        (dictSet [("/", none)] "/" (some ⟨7, false, false⟩))) "POST" "/"
        = routeLookup defaultRouteState.paths "POST" "/" := by
  have h := c9_register_overwrite_warns defaultRouteState "GET" "/" [("/", none)] none []
    ⟨7, false, false⟩ (by decide) (by decide) (by decide)
  exact ⟨h.1.1, h.1.2.1, h.1.2.2 "POST" "/" (by decide)⟩

/-! ## C7: response serialization -/

/-- C7 counterexample: a response whose handler already placed a
Content-Length header and whose body is empty still has that header
serialized — `_send_pending_response` sends every header in
`pending_resp.headers` (web_server.py lines 113-115); only the *injection*
is conditional on a non-empty body. -/
theorem c7_counterexample :
    (⟨200, [("Content-Length", "5")], []⟩ : ResponseContainer).body = []
    ∧ dictContains
        (sendPendingResponse (some "SeanP") "GET"
          ⟨200, [("Content-Length", "5")], []⟩).headersSent "Content-Length" = true := by
  exact ⟨by decide, by decide⟩

/-- C7 (amended): a Content-Length header equal to the body length is
injected into the sent headers if and only if the body is non-empty (for an
empty body nothing is injected — the sent headers are exactly the response's
own, modulo the banner-controlled server-header filter); body bytes are
written exactly when the method is neither HEAD nor OPTIONS and the body is
non-empty; and the status line and header block do not depend on the
request method. -/
theorem c7_serialization (banner : Option String) (command : String)
    (resp : ResponseContainer) :
    (resp.body ≠ [] →
       ("Content-Length", toString resp.body.length)
         ∈ (sendPendingResponse banner command resp).headersSent)
    ∧ (resp.body = [] →
       (sendPendingResponse banner command resp).headersSent =
         resp.headers.filter (fun kv => !(strLower kv.1 == "server" && banner.isNone)))
    ∧ (command ≠ "HEAD" → command ≠ "OPTIONS" → resp.body ≠ [] →
       (sendPendingResponse banner command resp).bodySent = resp.body)
    ∧ (command = "HEAD" ∨ command = "OPTIONS" ∨ resp.body = [] →
       (sendPendingResponse banner command resp).bodySent = [])
    ∧ (sendPendingResponse banner command resp).statusLine = resp.status_code
    ∧ (sendPendingResponse banner command resp).headersSent =
        (sendPendingResponse banner "GET" resp).headersSent := by
  refine ⟨?_, ?_, ?_, ?_, rfl, rfl⟩
  · intro hb
    have hlen : 0 < resp.body.length := List.length_pos.mpr hb
    have hmem := mem_dictSet_self resp.headers "Content-Length" (toString resp.body.length)
    simp only [sendPendingResponse, hlen, if_pos]
    refine List.mem_filter.mpr ⟨hmem, ?_⟩
    have : (strLower "Content-Length" == "server") = false := by decide
    simp [this]
  · intro hb
    simp [sendPendingResponse, hb]
  · intro h1 h2 hb
    have hlen : 0 < resp.body.length := List.length_pos.mpr hb
    simp [sendPendingResponse, h1, h2, hlen]
  · intro h
    rcases h with h | h | h <;> simp [sendPendingResponse, h]

/-- C7 witness: for a two-byte body, `Content-Length: 2` is sent both for
HEAD (body omitted) and POST (body written). -/
theorem c7_serialization_witness :
    ("Content-Length", "2")
      ∈ (sendPendingResponse (some "SeanP") "HEAD" ⟨200, [], [7, 8]⟩).headersSent
    ∧ (sendPendingResponse (some "SeanP") "HEAD" ⟨200, [], [7, 8]⟩).bodySent = []
    ∧ (sendPendingResponse (some "SeanP") "POST" ⟨200, [], [7, 8]⟩).bodySent = [7, 8] := by
  refine ⟨?_, ?_, ?_⟩
  · simpa using (c7_serialization (some "SeanP") "HEAD" ⟨200, [], [7, 8]⟩).1 (by decide)
  · exact (c7_serialization (some "SeanP") "HEAD" ⟨200, [], [7, 8]⟩).2.2.2.1 (Or.inl rfl)
  · exact (c7_serialization (some "SeanP") "POST" ⟨200, [], [7, 8]⟩).2.2.1
      (by decide) (by decide) (by decide)

/-! ## C5: Content-Length body acquisition -/

/-- When the stream yields exactly as many bytes as the read loop asks for —
in non-empty partial reads whose lengths sum to the requested count — the
loop accumulates precisely those bytes. -/
theorem readLoop_flatten :
    ∀ segs : List (List Nat), (∀ seg ∈ segs, seg ≠ []) →
      readLoop segs.flatten.length segs = segs.flatten := by
  intro segs
  induction segs with
  | nil => intro _; simp [readLoop]
  | cons seg rest ih =>
    intro hne
    have hseg : seg ≠ [] := hne seg (by simp)
    have hpos : 0 < seg.length := List.length_pos.mpr hseg
    have hn0 : seg.length + rest.flatten.length ≠ 0 := by omega
    have hle : seg.length ≤ seg.length + rest.flatten.length := Nat.le_add_right _ _
    simp only [List.flatten_cons, List.length_append, readLoop, hn0, if_false, hle,
      if_pos, hseg, Nat.add_sub_cancel_left]
    exact congrArg (seg ++ ·) (ih fun s hs => hne s (List.mem_cons_of_mem _ hs))

/-- C5 counterexample: a POST with `Content-Length: 0` and
`Transfer-Encoding: chunked` on a stream supplying exactly 0 body bytes does
not leave the handler an empty payload — the code takes the chunked branch
(the Content-Length branch requires a *positive* length), `readline` on the
exhausted stream returns `b''`, and `int(b'', 16)` raises ValueError,
aborting the request. -/
theorem c5_counterexample :
    initReqPayload "POST" [("Content-Length", "0"), ("Transfer-Encoding", "chunked")] []
      = .error "ValueError" := by
  simp [initReqPayload, scanHasContentLen, scanBodyHeaders, pyIntDec?, parseDecNat?,
    decStep, isStrSpace, strLower, strIn, isSubB, readChunks]

/-- C5 (amended): for a POST/PUT request whose header scan yields
Content-Length N and no Content-Encoding, if the stream supplies exactly N
bytes across non-empty partial reads, the request payload is byte-for-byte
those N bytes; for N = 0 this holds provided the request does not also
declare a chunked Transfer-Encoding (which would take the chunked branch
instead). -/
theorem c5_content_length_payload (command : String) (headers : Headers)
    (segs : List (List Nat)) (N : Int)
    (hcmd : command = "POST" ∨ command = "PUT")
    (hcl : (scanBodyHeaders headers).1 = N)
    (hcomp : (scanBodyHeaders headers).2.1 = none)
    (hch : 0 < N ∨ (scanBodyHeaders headers).2.2 = false)
    (hne : ∀ seg ∈ segs, seg ≠ [])
    (hlen : (segs.flatten.length : Int) = N) :
    initReqPayload command headers segs = .ok (segs.flatten, none) := by
  have hcmd' : (command = "POST" ∨ command = "PUT" ∨ scanHasContentLen headers = true) :=
    hcmd.elim Or.inl (fun h => Or.inr (Or.inl h))
  by_cases hpos : 0 < N
  · have htoNat : N.toNat = segs.flatten.length := by omega
    simp only [initReqPayload, hcmd', if_pos, hcl, hpos, htoNat, hcomp]
    rw [readLoop_flatten segs hne]
  · have hch' : (scanBodyHeaders headers).2.2 = false := hch.resolve_left hpos
    have hN0 : N = 0 := by omega
    have hflat : segs.flatten.length = 0 := by omega
    simp only [initReqPayload, hcmd', if_pos, hcl, hpos, if_false, hch',
      Bool.false_eq_true, hcomp]
    simp [List.length_eq_zero.mp hflat]

/-- C5 witness: `Content-Length: 3` with the three bytes arriving in partial
reads of one and two bytes. -/
theorem c5_content_length_payload_witness :
    initReqPayload "POST" [("Content-Length", "3")] [[1], [2, 3]] = .ok ([1, 2, 3], none) := by
  have := c5_content_length_payload "POST" [("Content-Length", "3")] [[1], [2, 3]] 3
    (Or.inl rfl) (by decide) (by decide) (Or.inl (by decide)) (by decide) (by decide)
  simpa using this

/-! ## C6: chunked transfer decoding -/

theorem hexDigitVal?_hexDigitChar (d : Nat) (hd : d < 16) :
    hexDigitVal? (hexDigitChar d) = some d := by
  interval_cases d <;> decide

theorem hexEncodeAux_ne_nil (n : Nat) (hn : n ≠ 0) : hexEncodeAux n ≠ [] := by
  rw [hexEncodeAux]
  simp [hn]

theorem hexEncodeAux_foldl (n : Nat) (hn : 0 < n) :
    ∀ a : Nat, (hexEncodeAux n).foldl hexStep (some a) =
      some (a * 16 ^ (hexEncodeAux n).length + n) := by
  induction n using Nat.strong_induction_on with
  | _ n ih =>
    intro a
    have hn' : n ≠ 0 := Nat.pos_iff_ne_zero.mp hn
    rw [hexEncodeAux]
    simp only [hn', dif_neg, not_false_iff]
    by_cases hq : n / 16 = 0
    · have hlt : n < 16 := by omega
      have hmod : n % 16 = n := Nat.mod_eq_of_lt hlt
      rw [hexEncodeAux]
      simp only [hq, dif_pos, List.nil_append, List.foldl_cons, List.foldl_nil,
        List.length_cons, List.length_nil]
      simp [hexStep, hmod, hexDigitVal?_hexDigitChar n hlt, pow_one]
    · have hqlt : n / 16 < n := Nat.div_lt_self hn (by norm_num)
      rw [List.foldl_append, ih (n / 16) hqlt (Nat.pos_of_ne_zero hq) a]
      simp only [List.foldl_cons, List.foldl_nil, hexStep,
        hexDigitVal?_hexDigitChar (n % 16) (Nat.mod_lt n (by norm_num))]
      congr 1
      rw [List.length_append, List.length_cons, List.length_nil]
      have h2 : n / 16 * 16 + n % 16 = n := by omega
      calc (a * 16 ^ (hexEncodeAux (n / 16)).length + n / 16) * 16 + n % 16
          = a * (16 ^ (hexEncodeAux (n / 16)).length * 16) + (n / 16 * 16 + n % 16) := by ring
        _ = a * 16 ^ ((hexEncodeAux (n / 16)).length + 1) + n := by rw [h2, pow_succ]

theorem parseHexNat?_hexEncode (n : Nat) : parseHexNat? (hexEncode n) = some n := by
  by_cases hn : n = 0
  · subst hn; decide
  · have hne := hexEncodeAux_ne_nil n hn
    obtain ⟨d, ds, hcons⟩ := List.exists_cons_of_ne_nil hne
    rw [hexEncode, if_neg hn, hcons]
    show (d :: ds).foldl hexStep (some 0) = some n
    rw [← hcons, hexEncodeAux_foldl n (Nat.pos_of_ne_zero hn) 0]
    simp

theorem hexEncodeAux_bounds (n : Nat) :
    ∀ c ∈ hexEncodeAux n, 48 ≤ c ∧ c ≤ 102 := by
  induction n using Nat.strong_induction_on with
  | _ n ih =>
    intro c hc
    by_cases hn : n = 0
    · rw [hexEncodeAux] at hc; simp [hn] at hc
    · rw [hexEncodeAux] at hc
      simp only [hn, dif_neg, not_false_iff, List.mem_append, List.mem_singleton] at hc
      rcases hc with hc | rfl
      · exact ih (n / 16) (Nat.div_lt_self (Nat.pos_of_ne_zero hn) (by norm_num)) c hc
      · have hm : n % 16 < 16 := Nat.mod_lt n (by norm_num)
        unfold hexDigitChar
        split <;> omega

theorem hexEncode_bounds (n : Nat) : ∀ c ∈ hexEncode n, 48 ≤ c ∧ c ≤ 102 := by
  intro c hc
  by_cases hn : n = 0
  · rw [hexEncode, if_pos hn] at hc
    simp at hc
    omega
  · rw [hexEncode, if_neg hn] at hc
    exact hexEncodeAux_bounds n c hc

theorem isPySpace_false_of_ge (c : Nat) (h : 48 ≤ c) : isPySpace c = false := by
  simp only [isPySpace, Bool.or_eq_false_iff, decide_eq_false_iff_not]
  omega

theorem readlineB_append (pre rest : List Nat) (hpre : ∀ c ∈ pre, c ≠ 10) :
    readlineB (pre ++ 10 :: rest) = (pre ++ [10], rest) := by
  induction pre with
  | nil => simp [readlineB]
  | cons c t ih =>
    have hc : c ≠ 10 := hpre c (by simp)
    have ih' := ih fun x hx => hpre x (List.mem_cons_of_mem _ hx)
    simp [readlineB, hc, ih']

theorem dropWhile_eq_self_of (m : List Nat) (h : ∀ c ∈ m, isPySpace c = false) :
    m.dropWhile isPySpace = m := by
  cases m with
  | nil => rfl
  | cons x xs => simp [List.dropWhile_cons, h x (by simp)]

theorem bstrip_digits (l : List Nat) (hl : l ≠ []) (hns : ∀ c ∈ l, isPySpace c = false) :
    bstrip (l ++ [13, 10]) = l := by
  unfold bstrip
  have h1 : (l ++ [13, 10]).dropWhile isPySpace = l ++ [13, 10] := by
    cases l with
    | nil => exact absurd rfl hl
    | cons x xs => simp [List.dropWhile_cons, hns x (by simp)]
  rw [h1]
  have h2 : (l ++ [13, 10]).reverse = 10 :: 13 :: l.reverse := by simp
  rw [h2]
  have h10 : isPySpace 10 = true := by decide
  have h13 : isPySpace 13 = true := by decide
  rw [List.dropWhile_cons_of_pos h10, List.dropWhile_cons_of_pos h13,
    dropWhile_eq_self_of l.reverse (fun c hc => hns c (List.mem_reverse.mp hc)),
    List.reverse_reverse]

theorem hexEncode_no_lf (n : Nat) : ∀ c ∈ hexEncode n, c ≠ 10 := by
  intro c hc
  have := hexEncode_bounds n c hc
  omega

theorem readChunks_cons (c w : List Nat) (hc : c ≠ []) :
    readChunks (chunkEncode c ++ w) =
      match readChunks w with
      | .ok r => .ok (c ++ r)
      | .error e => .error e := by
  have h1 : chunkEncode c ++ w =
      (hexEncode c.length ++ [13]) ++ 10 :: (c ++ 13 :: 10 :: w) := by
    simp [chunkEncode, List.append_assoc]
  have hpre : ∀ x ∈ hexEncode c.length ++ [13], x ≠ 10 := by
    intro x hx
    rcases List.mem_append.mp hx with hx | hx
    · exact hexEncode_no_lf c.length x hx
    · simp at hx; omega
  have hsne : chunkEncode c ++ w ≠ [] := by
    rw [h1]; simp
  have hline : readlineB (chunkEncode c ++ w) =
      ((hexEncode c.length ++ [13]) ++ [10], c ++ 13 :: 10 :: w) := by
    rw [h1]; exact readlineB_append _ _ hpre
  have hstr : bstrip ((hexEncode c.length ++ [13]) ++ [10]) = hexEncode c.length := by
    have : (hexEncode c.length ++ [13]) ++ [10] = hexEncode c.length ++ [13, 10] := by
      simp
    rw [this]
    refine bstrip_digits _ ?_ ?_
    · by_cases hn : c.length = 0
      · simp [hexEncode, hn]
      · rw [hexEncode, if_neg hn]; exact hexEncodeAux_ne_nil _ hn
    · intro x hx
      exact isPySpace_false_of_ge x (hexEncode_bounds c.length x hx).1
  obtain ⟨n, hn⟩ : ∃ n, c.length = n + 1 := by
    have := List.length_pos.mpr hc
    exact ⟨c.length - 1, by omega⟩
  have htake : (c ++ 13 :: 10 :: w).take (n + 1) = c := by
    rw [← hn]; exact List.take_left c _
  have hdrop : ((c ++ 13 :: 10 :: w).drop (n + 1)).drop 2 = w := by
    rw [← hn, List.drop_left c _]
    rfl
  rw [readChunks, dif_neg hsne, hline]
  simp only [hstr]
  simp only [parseHexNat?_hexEncode c.length]
  simp only [hn]
  simp only [htake, hdrop]

theorem readChunks_chunkedWire :
    ∀ chunks : List (List Nat), (∀ c ∈ chunks, c ≠ []) →
      readChunks (chunkedWire chunks) = .ok chunks.flatten := by
  intro chunks
  induction chunks with
  | nil =>
    intro _
    simp [chunkedWire, readChunks, readlineB, bstrip, parseHexNat?, hexStep,
      hexDigitVal?, isPySpace]
  | cons c rest ih =>
    intro hne
    have hw : chunkedWire (c :: rest) = chunkEncode c ++ chunkedWire rest := by
      simp [chunkedWire, List.append_assoc]
    rw [hw, readChunks_cons c _ (hne c (by simp)),
      ih fun x hx => hne x (List.mem_cons_of_mem _ hx)]
    simp

/-- C6: for a POST/PUT request whose header scan finds no positive
Content-Length, no Content-Encoding, and a chunked Transfer-Encoding, the
decoded request body equals the concatenation of the payloads of all
non-terminal chunks: each chunk is consumed as a hexadecimal size line, that
many payload bytes, and a 2-byte terminator, until the zero-size chunk. -/
theorem c6_chunked_payload (command : String) (headers : Headers)
    (chunks segs : List (List Nat))
    (hcmd : command = "POST" ∨ command = "PUT")
    (hcl : (scanBodyHeaders headers).1 ≤ 0)
    (hcomp : (scanBodyHeaders headers).2.1 = none)
    (hch : (scanBodyHeaders headers).2.2 = true)
    (hne : ∀ c ∈ chunks, c ≠ [])
    (hsegs : segs.flatten = chunkedWire chunks) :
    initReqPayload command headers segs = .ok (chunks.flatten, none) := by
  have hcmd' : (command = "POST" ∨ command = "PUT" ∨ scanHasContentLen headers = true) :=
    hcmd.elim Or.inl (fun h => Or.inr (Or.inl h))
  have hnpos : ¬(0 < (scanBodyHeaders headers).1) := by omega
  rw [initReqPayload, if_pos hcmd']
  simp only []
  rw [if_neg hnpos, if_pos hch, hsegs, readChunks_chunkedWire chunks hne, hcomp]

/-- C6 witness: one five-byte chunk followed by the zero-size terminal chunk
(the chunk-size pattern of the spec's test) reconstructs the payload. -/
theorem c6_chunked_payload_witness :
    initReqPayload "POST" [("Transfer-Encoding", "chunked")]
        [chunkedWire [[72, 69, 76, 76, 79]]] = .ok ([72, 69, 76, 76, 79], none) := by
  have := c6_chunked_payload "POST" [("Transfer-Encoding", "chunked")]
    [[72, 69, 76, 76, 79]] [chunkedWire [[72, 69, 76, 76, 79]]]
    (Or.inl rfl) (by decide) (by decide) (by decide) (by decide) (by simp)
  simpa using this
